import Mathlib

/-!
Verification development for the constraint-accumulation / matrix-assembly /
solve pipeline of `LoopStructural/interpolators/discete_interpolator.py`
(class `DiscreteInterpolator`).

Modelling conventions:
* IEEE-754 doubles are modelled by `PFloat`: either NaN or an exact rational.
  The interpolator's internal triplet stores are modelled with plain rationals,
  which is faithful because `add_constraints_to_least_squares` rejects any batch
  containing a NaN before anything is stored, and `add_equality_constraints`
  only ever stores ones, region-local indices and caller values.
* `scipy.sparse.coo_matrix((vals, (rows, cols)))` is modelled by its dense
  semantics: the (i, j) entry is the sum of all values whose (row, col) pair is
  (i, j).  Matrix products (`A.T.dot(A)`, `A.T.dot(B)`) and `bmat` block
  assembly are modelled by their dense index semantics.
* The external solver backends (scipy `cg`/`splu`/`lsqr`, cholmod, pyamg) are
  out-of-repository collaborators; they are abstracted as a `Backends` record
  of functions from the assembled system to a solution vector, plus
  availability flags for the optional cholmod and pyamg imports.
* Python's `logger.warning` / `logger.info` calls are modelled by appending the
  (un-interpolated) format string to a `log` field of the state.
-/

/-- A Python/numpy double: NaN or an exact rational value. -/
inductive PFloat where
  | nan : PFloat
  | val : ℚ → PFloat
deriving DecidableEq

/-- `np.isnan` on one scalar. -/
def PFloat.isNaN : PFloat → Bool
  | PFloat.nan => true
  | PFloat.val _ => false

/-- IEEE `== 0` comparison: NaN compares unequal to everything. -/
def PFloat.isZero : PFloat → Bool
  | PFloat.nan => false
  | PFloat.val q => q == 0

/-- The rational value of a non-NaN float (0 on NaN; only used after the
NaN guard of `add_constraints_to_least_squares` has passed). -/
def PFloat.toQ : PFloat → ℚ
  | PFloat.nan => 0
  | PFloat.val q => q

/-- IEEE `==` on doubles: NaN compares false against everything, including
itself.  This models the (broken) `self.c == np.nan` check in `_solve`. -/
def pfeq : PFloat → PFloat → Bool
  | PFloat.val a, PFloat.val b => a == b
  | _, _ => false

/-- State of a `DiscreteInterpolator`: the active region, the soft-constraint
triplet stores `A`/`row`/`col` with RHS list `B` and row counter `c_`, the
equality-constraint stores, the chosen solver, the solution array `c`, and the
support's property dictionary (`self.support.properties`). -/
structure Interp where
  n_nodes : ℕ
  region : List ℕ
  nx : ℕ
  shape : String
  c_ : ℕ
  A : List ℚ
  row : List ℕ
  col : List ℚ
  B : List ℚ
  eq_const_C : List ℚ
  eq_const_row : List ℕ
  eq_const_col : List ℚ
  eq_const_d : List ℚ
  eq_const_c_ : ℕ
  solver : Option String
  up_to_date : Bool
  propertyname : String
  c : List PFloat
  props : List (String × List PFloat)
  log : List String
deriving DecidableEq

/-- `np.any(np.isnan(xs))` for a 1-D array. -/
def hasNaNRow (xs : List PFloat) : Bool := xs.any PFloat.isNaN

/-- `np.any(np.isnan(xs))` for a 2-D array. -/
def hasNaNMat (xs : List (List PFloat)) : Bool := xs.any hasNaNRow

/-- Flattened triplets of one batch, in row-major order, mirroring
`rows = np.tile(np.arange(0, nr), (A.shape[-1], 1)).T + self.c_` followed by
`A.flatten()` / `rows.flatten()` / `idc.flatten()`: each entry of input row `r`
is paired with global row index `c0 + r` and its column index. -/
def tripletsFrom : ℕ → List (List PFloat × List PFloat) → List (PFloat × ℕ × PFloat)
  | _, [] => []
  | r, p :: rest => (p.1.zip p.2).map (fun e => (e.1, r, e.2)) ++ tripletsFrom (r + 1) rest

/-- The triplets that survive the `mask = A == 0` stripping
(`self.A.extend(A[~mask])` etc.): entries whose coefficient is exactly 0 are
dropped from the value/row/col stores. -/
def keptTriplets (Ain idc : List (List PFloat)) (c0 : ℕ) : List (PFloat × ℕ × PFloat) :=
  (tripletsFrom c0 (Ain.zip idc)).filter (fun t => PFloat.isZero t.1 = false)

/-- `DiscreteInterpolator.add_constraints_to_least_squares` (2-D batch case).
Rejects the whole batch with a warning if any NaN appears in `idc`, `A` or
`B`; otherwise advances the row counter by the number of rows and, on a
rectangular-shape interpolator, appends the zero-stripped triplets and the
full flattened `B` to the stores. -/
def add_constraints_to_least_squares (s : Interp) (Ain : List (List PFloat))
    (Bin : List PFloat) (idc : List (List PFloat)) : Interp :=
  if hasNaNMat idc || hasNaNMat Ain || hasNaNRow Bin then
    { s with log := s.log ++ ["Constraints contain nan not adding constraints"] }
  else if s.shape = "rectangular" then
    { s with c_ := s.c_ + Ain.length,
             A := s.A ++ (keptTriplets Ain idc s.c_).map (fun t => PFloat.toQ t.1),
             row := s.row ++ (keptTriplets Ain idc s.c_).map (fun t => t.2.1),
             col := s.col ++ (keptTriplets Ain idc s.c_).map (fun t => PFloat.toQ t.2.2),
             B := s.B ++ Bin.map PFloat.toQ }
  else { s with c_ := s.c_ + Ain.length }

/-- The global-to-local index map `gi` of `add_equality_constraints`:
`gi = np.full(n_nodes, -1); gi[self.region] = np.arange(0, self.nx)`.
Later assignments overwrite earlier ones, as in numpy fancy assignment. -/
def giFun (s : Interp) (g : ℕ) : ℤ :=
  (s.region.zip (List.range s.nx)).foldl
    (fun acc p => if g = p.1 then (p.2 : ℤ) else acc) (-1)

/-- The `(local index, value)` pairs retained by `add_equality_constraints`:
`idc = gi[node_idx]; outside = ~(idc == -1)` keeps exactly the nodes whose
mapped index is not the sentinel `-1`. -/
def keptEq (s : Interp) (node_idx : List ℕ) (values : List ℚ) : List (ℤ × ℚ) :=
  ((node_idx.map (fun g => giFun s g)).zip values).filter (fun p => p.1 != -1)

/-- `DiscreteInterpolator.add_equality_constraints`: appends a unit coefficient,
a batch-local row index restarting at 0, the region-local column index and the
target value for each retained node, and advances `eq_const_c_` by the number
of retained nodes. -/
def add_equality_constraints (s : Interp) (node_idx : List ℕ) (values : List ℚ) : Interp :=
  { s with
    eq_const_C := s.eq_const_C ++ List.replicate (keptEq s node_idx values).length 1,
    eq_const_col := s.eq_const_col ++ (keptEq s node_idx values).map (fun p => (p.1 : ℚ)),
    eq_const_row := s.eq_const_row ++ List.range (keptEq s node_idx values).length,
    eq_const_d := s.eq_const_d ++ (keptEq s node_idx values).map (fun p => p.2),
    eq_const_c_ := s.eq_const_c_ + (keptEq s node_idx values).length }

/-- Dense entry of a matrix or vector held as a list (0 beyond the end),
matching `np.array(self.B)[i]` etc. within bounds. -/
def qAt : List ℚ → ℕ → ℚ
  | [], _ => 0
  | x :: _, 0 => x
  | _ :: t, n + 1 => qAt t n

/-- Dense (i, j) entry of a COO triplet list: duplicate entries are summed,
as in `scipy.sparse.coo_matrix`. -/
def cooFold : List (ℕ × ℚ × ℚ) → ℕ → ℕ → ℚ
  | [], _, _ => 0
  | t :: rest, i, j => (if t.1 = i ∧ t.2.1 = (j : ℚ) then t.2.2 else 0) + cooFold rest i j

/-- Dense (i, j) entry of `coo_matrix((vals, (rows, cols)))`.  Column indices
are stored as floats in the Python lists, hence the rational comparison. -/
def cooEntry (vals : List ℚ) (rows : List ℕ) (cols : List ℚ) (i j : ℕ) : ℚ :=
  cooFold (rows.zip (cols.zip vals)) i j

/-- Dense entry of the rectangular soft-constraint matrix
`A = coo_matrix((self.A, (self.row, self.col)), shape=(self.c_, self.nx))`. -/
def Aent (s : Interp) (i j : ℕ) : ℚ := cooEntry s.A s.row s.col i j

/-- Dense entry of the RHS vector `B = np.array(self.B)`. -/
def Bent (s : Interp) (i : ℕ) : ℚ := qAt s.B i

/-- Dense entry of the normal-equations matrix `A.T.dot(A)`. -/
def AtA (s : Interp) (i j : ℕ) : ℚ :=
  Finset.sum (Finset.range s.c_) (fun r => Aent s r i * Aent s r j)

/-- Dense entry of the normal-equations RHS `A.T.dot(B)`. -/
def AtB (s : Interp) (i : ℕ) : ℚ :=
  Finset.sum (Finset.range s.c_) (fun r => Aent s r i * Bent s r)

/-- Dense entry of the equality matrix `C = coo_matrix((self.eq_const_C,
(self.eq_const_row, self.eq_const_col)), shape=(self.eq_const_c_, self.nx))`. -/
def Centry (s : Interp) (r cidx : ℕ) : ℚ :=
  cooEntry s.eq_const_C s.eq_const_row s.eq_const_col r cidx

/-- Dense entry of the equality target vector `d = np.array(self.eq_const_d)`. -/
def dEntry (s : Interp) (r : ℕ) : ℚ := qAt s.eq_const_d r

/-- `np.finfo('float').eps`, machine epsilon of a double. -/
def eps : ℚ := 1 / 2 ^ 52

/-- An assembled sparse system: matrix dimensions, dense matrix semantics,
dense RHS semantics, and the RHS length. -/
structure SparseSystem where
  nrows : ℕ
  ncols : ℕ
  mat : ℕ → ℕ → ℚ
  rhs : ℕ → ℚ
  rhsLen : ℕ

/-- The square system before damping: `AAT = A.T.dot(A)`, `BT = A.T.dot(B)`,
and when equality constraints exist, the `bmat([[AAT, C.T], [C, None]])`
saddle-point augmentation with RHS `np.hstack([BT, d])`. -/
def assembleSquare (s : Interp) : SparseSystem :=
  if 0 < s.eq_const_c_ then
    { nrows := s.nx + s.eq_const_c_
      ncols := s.nx + s.eq_const_c_
      mat := fun i j =>
        if i < s.nx ∧ j < s.nx then AtA s i j
        else if i < s.nx then Centry s (j - s.nx) i
        else if j < s.nx then Centry s (i - s.nx) j
        else 0
      rhs := fun i => if i < s.nx then AtB s i else dEntry s (i - s.nx)
      rhsLen := s.nx + s.eq_const_c_ }
  else
    { nrows := s.nx, ncols := s.nx, mat := AtA s, rhs := AtB s, rhsLen := s.nx }

/-- `AAT += eye(AAT.shape[0]) * np.finfo('float').eps`: add machine epsilon to
the diagonal of the assembled square matrix. -/
def dampSystem (sys : SparseSystem) : SparseSystem :=
  { sys with mat := fun i j => sys.mat i j + (if i = j ∧ i < sys.nrows then eps else 0) }

/-- The info messages logged by the square branch of `build_matrix`. -/
def squareLog (s : Interp) : List String :=
  if 0 < s.eq_const_c_ then
    ["Interpolation matrix is %i x %i", "Equality block is %i x %i"]
  else ["Interpolation matrix is %i x %i"]

/-- `DiscreteInterpolator.build_matrix(square, damp)`: either the raw
rectangular system (equality constraints ignored, with a log message), or the
normal equations, augmented by the equality block when any equality
constraints exist, and optionally damped.  Also returns the log messages the
call emits. -/
def build_matrix (s : Interp) (square : Bool) (damp : Bool) : SparseSystem × List String :=
  if square = false then
    ({ nrows := s.c_, ncols := s.nx, mat := Aent s, rhs := Bent s, rhsLen := s.B.length },
     ["Interpolation matrix is %i x %i",
      "Using rectangular matrix, equality constraints are not used"])
  else if damp = true then
    (dampSystem (assembleSquare s), squareLog s ++ ["Adding eps to matrix diagonal"])
  else (assembleSquare s, squareLog s)

/-- Abstraction of the external solver libraries consumed by `_solve_cg`,
`_solve_lu`, `_solve_chol`, `_solve_pyamg` and `_solve_lsqr`: each backend maps
the assembled system to a dense solution vector.  `cholAvailable` and
`pyamgAvailable` model whether the optional `sksparse.cholmod` and `pyamg`
imports succeed. -/
structure Backends where
  cg : SparseSystem → List ℚ
  lu : SparseSystem → List ℚ
  cholAvailable : Bool
  chol : SparseSystem → List ℚ
  pyamgAvailable : Bool
  pyamg : SparseSystem → List ℚ
  lsqr : SparseSystem → List ℚ

/-- The kwargs of `_solve` that alter control flow: the `damp` flag
(default true) and the optional caller-supplied solver callable under the
`external` key. -/
structure Kwargs where
  damp : Option Bool
  extSolver : Option (SparseSystem → List ℚ)

/-- The supported solver names of `_solve`. -/
def supportedSolvers : List String := ["cg", "chol", "lu", "pyamg", "lsqr", "external"]

/-- `self.c[g]` with numpy semantics over the full-length result array
(NaN default out of range, unreachable for in-bounds indices). -/
def atD : List PFloat → ℕ → PFloat
  | [], _ => PFloat.nan
  | x :: _, 0 => x
  | _ :: t, n + 1 => atD t n

/-- `self.c[self.region] = vals`: scatter a dense vector into the region's
positions of the full-length array. -/
def scatter (c : List PFloat) (region : List ℕ) (vals : List ℚ) : List PFloat :=
  (region.zip vals).foldl (fun acc p => acc.set p.1 (PFloat.val p.2)) c

/-- `self.c[self.region] = False`: numpy broadcasts the Python `False`
returned by `_solve_chol` on ImportError as 0.0 over every region position. -/
def scatterFalse (c : List PFloat) (region : List ℕ) : List PFloat :=
  region.foldl (fun acc g => acc.set g (PFloat.val 0)) c

/-- Tail of `_solve`: publish `self.c` onto
`self.support.properties[self.propertyname]` and run the two diagnostic
checks.  `np.all(self.c == np.nan)` uses IEEE `==`, so it is only true for an
empty array; `np.all(self.c[self.region] == 0)` warns on an all-zero field. -/
def publish (s : Interp) (cres : List PFloat) (lg : List String) : Interp :=
  { s with c := cres,
           props := (s.propertyname, cres) :: s.props,
           log := s.log ++ lg
             ++ (if cres.all (fun x => pfeq x PFloat.nan) then
                   ["Solver not run, no scalar field"] else [])
             ++ (if (s.region.map (fun g => atD cres g)).all (fun x => pfeq x (PFloat.val 0)) then
                   ["No solution, scalar field 0. Add more data."] else []) }

/-- The system `_solve` assembles for a given solver name: rectangular for
`lsqr` (`self.build_matrix(False)`), otherwise square with the `damp` kwarg
(default true). -/
def solveSys (s : Interp) (solver : String) (kw : Kwargs) : SparseSystem :=
  if solver = "lsqr" then (build_matrix s false true).1
  else (build_matrix s true (kw.damp.getD true)).1

/-- The log messages of the `build_matrix` call made by `_solve`. -/
def buildLog (s : Interp) (solver : String) (kw : Kwargs) : List String :=
  if solver = "lsqr" then (build_matrix s false true).2
  else (build_matrix s true (kw.damp.getD true)).2

/-- The raw vector produced by the dispatched backend, before any `[:nx]`
restriction.  For `pyamg` with the library unavailable, the except-branch
falls back to `self._solve_cg(A, B)`. -/
def rawOutput (bk : Backends) (kw : Kwargs) (sys : SparseSystem) (solver : String) : List ℚ :=
  if solver = "cg" then bk.cg sys
  else if solver = "chol" then bk.chol sys
  else if solver = "lu" then bk.lu sys
  else if solver = "pyamg" then (if bk.pyamgAvailable = true then bk.pyamg sys else bk.cg sys)
  else if solver = "lsqr" then bk.lsqr sys
  else match kw.extSolver with
       | some f => f sys
       | none => []

/-- The vector `_solve` actually scatters into the region: every branch
restricts the backend output to the first `nx` entries except `lsqr`, whose
result is assigned in full (`self.c[self.region] = self._solve_lsqr(A, B)`). -/
def solveVec (bk : Backends) (kw : Kwargs) (s : Interp) (sys : SparseSystem)
    (solver : String) : List ℚ :=
  if solver = "lsqr" then rawOutput bk kw sys solver
  else (rawOutput bk kw sys solver).take s.nx

/-- The per-branch info/warning messages of `_solve`'s dispatch. -/
def dispatchLog (bk : Backends) (solver : String) : List String :=
  if solver = "cg" then ["Solving using conjugate gradient"]
  else if solver = "lu" then ["Solving using scipy LU"]
  else if solver = "pyamg" then
    (if bk.pyamgAvailable = true then ["Solving with pyamg solve"]
     else ["Solving with pyamg solve", "Pyamg not installed using cg instead"])
  else if solver = "external" then ["Using external solver"]
  else []

/-- `DiscreteInterpolator._solve(solver, **kwargs)`:
initializes the full-length result array to NaN, assembles the system, runs
the branch matching the solver name (none matches an unknown name, leaving the
array all NaN), scatters the result into the region and publishes the array.
The only raising path of the function's own code is the `kwargs['external']`
lookup (`KeyError`); the ImportError of `sksparse.cholmod` is caught inside
`_solve_chol`, which then returns `False` — broadcast by numpy as 0.0 over the
region. -/
def solveStep (bk : Backends) (s : Interp) (solver : String) (kw : Kwargs) :
    Except String Interp :=
  if solver = "external" ∧ kw.extSolver.isNone = true then Except.error "KeyError"
  else if solver = "chol" ∧ bk.cholAvailable = false then
    Except.ok (publish s
      (scatterFalse (List.replicate s.n_nodes PFloat.nan) s.region)
      (buildLog s solver kw ++ ["Scikit Sparse not installed try using cg instead"]))
  else if solver ∈ supportedSolvers then
    Except.ok (publish s
      (scatter (List.replicate s.n_nodes PFloat.nan) s.region
        (solveVec bk kw s (solveSys s solver kw) solver))
      (buildLog s solver kw ++ dispatchLog bk solver))
  else Except.ok (publish s (List.replicate s.n_nodes PFloat.nan) (buildLog s solver kw))

/-- `DiscreteInterpolator.update`: returns `False` when no solver was ever
selected; otherwise, when stale, re-runs `setup_interpolator` (abstracted as
`setup`, its code lives in the out-of-scope base class) and `_solve` with the
previously used solver and no kwargs, returning `_solve`'s `None` result. -/
def update (setup : Interp → Interp) (bk : Backends) (s : Interp) :
    Except String (Option Bool × Interp) :=
  match s.solver with
  | none => Except.ok (some false, s)
  | some sv =>
    if s.up_to_date = false then
      match solveStep bk (setup s) sv { damp := none, extSolver := none } with
      | Except.error e => Except.error e
      | Except.ok t => Except.ok (none, t)
    else Except.ok (none, s)

/-- First-match lookup in the property dictionary. -/
def findProp : List (String × List PFloat) → String → Option (List PFloat)
  | [], _ => none
  | p :: rest, name => if p.1 = name then some p.2 else findProp rest name

/-- `self.support.properties[name]`. -/
def getProp (s : Interp) (name : String) : Option (List PFloat) := findProp s.props name

/-- Whether a call completed without raising. -/
def exceptOk (r : Except String Interp) : Bool :=
  match r with
  | Except.ok _ => true
  | Except.error _ => false

/-- Published property of a completed `_solve` call (`none` if it raised). -/
def okProp (r : Except String Interp) (name : String) : Option (List PFloat) :=
  match r with
  | Except.ok t => getProp t name
  | Except.error _ => none

/-- Result array of a completed `_solve` call (`none` if it raised). -/
def okC (r : Except String Interp) : Option (List PFloat) :=
  match r with
  | Except.ok t => some t.c
  | Except.error _ => none

/-- A freshly constructed interpolator state over one support node with the
whole support as region, as `__init__` leaves it (empty stores, no solver). -/
def baseInterp : Interp :=
  { n_nodes := 1, region := [0], nx := 1, shape := "square",
    c_ := 0, A := [], row := [], col := [], B := [],
    eq_const_C := [], eq_const_row := [], eq_const_col := [], eq_const_d := [],
    eq_const_c_ := 0, solver := none, up_to_date := false,
    propertyname := "phi", c := [], props := [], log := [] }

/-- Two-node state with one soft constraint (2·x₀ = 3) and one equality
constraint pinning local node 1 to 5. -/
def cs1 : Interp :=
  { baseInterp with
    n_nodes := 2
    region := [0, 1]
    nx := 2
    c_ := 1
    A := [2]
    row := [0]
    col := [0]
    B := [3]
    eq_const_C := [1]
    eq_const_row := [0]
    eq_const_col := [1]
    eq_const_d := [5]
    eq_const_c_ := 1 }

/-- Rectangular one-node state with one stored soft constraint (1·x₀ = 2). -/
def cs2 : Interp :=
  { baseInterp with
    shape := "rectangular"
    c_ := 1
    A := [1]
    row := [0]
    col := [0]
    B := [2] }

/-- Fresh rectangular two-node state. -/
def cs3 : Interp :=
  { baseInterp with
    n_nodes := 2
    region := [0, 1]
    nx := 2
    shape := "rectangular" }

/-- Three-node support whose active region is nodes 0 and 2 (node 1 out of
region). -/
def cs4 : Interp :=
  { baseInterp with n_nodes := 3, region := [0, 2], nx := 2 }

/-- One-node state with a single soft constraint 2·x₀ = 3. -/
def cs6 : Interp :=
  { baseInterp with
    c_ := 1
    A := [2]
    row := [0]
    col := [0]
    B := [3] }

/-- One-node state with no constraints at all. -/
def cs8 : Interp := baseInterp

/-- State on which a solver was previously chosen. -/
def cs10 : Interp := baseInterp

/-- Exact solver for 1-by-1 systems, standing in for the external iterative
backends.  Modelled from the spec: converged scipy `cg` (and the other
backends) return the solution of the assembled square system within solver
tolerance, which for a 1-by-1 system `[[a]]·x = [b]` is `[b / a]` (and `[0]`
when the right-hand side is zero, matching `cg`'s immediate return on a zero
residual). -/
def oneSolve : SparseSystem → List ℚ := fun sys => [sys.rhs 0 / sys.mat 0 0]

/-- Backend instance: every library call solves the 1-by-1 system exactly;
`sksparse.cholmod` is not installed, `pyamg` is. -/
def bkOne : Backends :=
  { cg := oneSolve, lu := oneSolve, cholAvailable := false, chol := oneSolve,
    pyamgAvailable := true, pyamg := oneSolve, lsqr := oneSolve }

/-- `_solve` called with no keyword arguments. -/
def kwDefault : Kwargs := { damp := none, extSolver := none }

lemma atD_set_self (c : List PFloat) (g : ℕ) (v : PFloat) (h : g < c.length) :
    atD (c.set g v) g = v := by
  induction c generalizing g with
  | nil => simp at h
  | cons x t ih =>
    cases g with
    | zero => rfl
    | succ n => exact ih n (Nat.lt_of_succ_lt_succ h)

lemma atD_set_ne (c : List PFloat) (a g : ℕ) (v : PFloat) (h : g ≠ a) :
    atD (c.set a v) g = atD c g := by
  induction c generalizing a g with
  | nil => rfl
  | cons x t ih =>
    cases a with
    | zero =>
      cases g with
      | zero => exact absurd rfl h
      | succ m => rfl
    | succ n =>
      cases g with
      | zero => rfl
      | succ m => exact ih n m (fun hh => h (by rw [hh]))

lemma atD_replicate (n g : ℕ) : atD (List.replicate n PFloat.nan) g = PFloat.nan := by
  induction n generalizing g with
  | zero => rfl
  | succ m ih =>
    cases g with
    | zero => rfl
    | succ k => exact ih k

lemma scatter_core_length (l : List (ℕ × ℚ)) (c : List PFloat) :
    (l.foldl (fun acc p => acc.set p.1 (PFloat.val p.2)) c).length = c.length := by
  induction l generalizing c with
  | nil => rfl
  | cons a t ih => rw [List.foldl_cons, ih, List.length_set]

lemma scatter_length (c : List PFloat) (region : List ℕ) (vals : List ℚ) :
    (scatter c region vals).length = c.length :=
  scatter_core_length (region.zip vals) c

lemma scatterFalse_length (c : List PFloat) (region : List ℕ) :
    (scatterFalse c region).length = c.length := by
  induction region generalizing c with
  | nil => rfl
  | cons a t ih =>
    show (scatterFalse (c.set a (PFloat.val 0)) t).length = c.length
    rw [ih, List.length_set]

lemma scatter_core_atD_not_mem (l : List (ℕ × ℚ)) (c : List PFloat) (g : ℕ)
    (h : ∀ p ∈ l, p.1 ≠ g) :
    atD (l.foldl (fun acc p => acc.set p.1 (PFloat.val p.2)) c) g = atD c g := by
  induction l generalizing c with
  | nil => rfl
  | cons a t ih =>
    rw [List.foldl_cons, ih _ (fun p hp => h p (List.mem_cons_of_mem a hp))]
    exact atD_set_ne c a.1 g (PFloat.val a.2) (fun hh => h a (List.mem_cons_self a t) hh.symm)

lemma scatter_core_atD_mem (l : List (ℕ × ℚ)) (c : List PFloat) (g : ℕ) (v : ℚ)
    (hmem : (g, v) ∈ l) (hnd : (l.map Prod.fst).Nodup) (hb : g < c.length) :
    atD (l.foldl (fun acc p => acc.set p.1 (PFloat.val p.2)) c) g = PFloat.val v := by
  induction l generalizing c with
  | nil => simp at hmem
  | cons a t ih =>
    rw [List.foldl_cons]
    rcases List.mem_cons.mp hmem with heq | htail
    · have hx1 : a.1 = g := by rw [← heq]
      have hx2 : a.2 = v := by rw [← heq]
      have hnotin : ∀ p ∈ t, p.1 ≠ g := by
        intro p hp hpg
        exact (List.nodup_cons.mp hnd).1
          (hx1 ▸ hpg ▸ List.mem_map_of_mem Prod.fst hp)
      rw [scatter_core_atD_not_mem t _ g hnotin, hx1, hx2]
      exact atD_set_self c g (PFloat.val v) hb
    · have hlb : g < (c.set a.1 (PFloat.val a.2)).length := by
        rw [List.length_set]; exact hb
      exact ih _ htail (List.nodup_cons.mp hnd).2 hlb

lemma scatterFalse_atD (region : List ℕ) (c : List PFloat) (g : ℕ) (hb : g < c.length)
    (h : g ∈ region ∨ atD c g = PFloat.val 0) :
    atD (scatterFalse c region) g = PFloat.val 0 := by
  induction region generalizing c with
  | nil =>
    rcases h with h | h
    · simp at h
    · exact h
  | cons a t ih =>
    show atD (scatterFalse (c.set a (PFloat.val 0)) t) g = PFloat.val 0
    apply ih
    · rw [List.length_set]; exact hb
    · by_cases hga : g = a
      · right
        rw [hga]
        exact atD_set_self c a _ (hga ▸ hb)
      · rcases h with h | h
        · rcases List.mem_cons.mp h with h1 | h2
          · exact absurd h1 hga
          · left; exact h2
        · right
          rw [atD_set_ne c a g _ hga]
          exact h

lemma mem_zip_replicate {g : ℕ} {l : List ℕ} (h : g ∈ l) (b : ℚ) :
    (g, b) ∈ l.zip (List.replicate l.length b) := by
  induction l with
  | nil => simp at h
  | cons a t ih =>
    rcases List.mem_cons.mp h with rfl | ht
    · exact List.mem_cons_self _ _
    · exact List.mem_cons_of_mem _ (ih ht)

lemma gi_fold_not_mem (l : List (ℕ × ℕ)) (g : ℕ) (a : ℤ)
    (h : ∀ p ∈ l, p.1 ≠ g) :
    l.foldl (fun acc p => if g = p.1 then (p.2 : ℤ) else acc) a = a := by
  induction l generalizing a with
  | nil => rfl
  | cons x t ih =>
    rw [List.foldl_cons, if_neg (fun hh => h x (List.mem_cons_self x t) hh.symm)]
    exact ih a (fun p hp => h p (List.mem_cons_of_mem x hp))

lemma gi_fold_mem (l : List (ℕ × ℕ)) (g v : ℕ) (a : ℤ)
    (hmem : (g, v) ∈ l) (hnd : (l.map Prod.fst).Nodup) :
    l.foldl (fun acc p => if g = p.1 then (p.2 : ℤ) else acc) a = (v : ℤ) := by
  induction l generalizing a with
  | nil => simp at hmem
  | cons x t ih =>
    rw [List.foldl_cons]
    rcases List.mem_cons.mp hmem with heq | htail
    · have hx1 : x.1 = g := by rw [← heq]
      have hx2 : x.2 = v := by rw [← heq]
      rw [if_pos hx1.symm, hx2]
      apply gi_fold_not_mem
      intro p hp hpg
      exact (List.nodup_cons.mp hnd).1
        (hx1 ▸ hpg ▸ List.mem_map_of_mem Prod.fst hp)
    · have hne : g ≠ x.1 := by
        intro hh
        exact (List.nodup_cons.mp hnd).1
          (hh ▸ List.mem_map_of_mem Prod.fst htail)
      rw [if_neg hne]
      exact ih a htail (List.nodup_cons.mp hnd).2

lemma giFun_local_index (s : Interp) (hnd : s.region.Nodup)
    (hnx : s.region.length = s.nx) (i : ℕ) (hi : i < s.region.length) :
    giFun s (s.region.get ⟨i, hi⟩) = (i : ℤ) := by
  have hlen2 : i < (s.region.zip (List.range s.nx)).length := by
    rw [List.length_zip, List.length_range, ← hnx, Nat.min_self]
    exact hi
  have hri : i < (List.range s.nx).length := by
    rw [List.length_range, ← hnx]
    exact hi
  have hmem := List.getElem_mem hlen2
  rw [List.getElem_zip] at hmem
  rw [List.getElem_range] at hmem
  apply gi_fold_mem
  · rw [List.get_eq_getElem]
    exact hmem
  · rw [List.map_fst_zip]
    · exact hnd
    · rw [List.length_range, hnx]

lemma assembleSquare_nrows (s : Interp) (hk : 0 < s.eq_const_c_) :
    (assembleSquare s).nrows = s.nx + s.eq_const_c_ := by
  unfold assembleSquare
  rw [if_pos hk]

lemma assembleSquare_ncols (s : Interp) (hk : 0 < s.eq_const_c_) :
    (assembleSquare s).ncols = s.nx + s.eq_const_c_ := by
  unfold assembleSquare
  rw [if_pos hk]

lemma assembleSquare_rhsLen (s : Interp) (hk : 0 < s.eq_const_c_) :
    (assembleSquare s).rhsLen = s.nx + s.eq_const_c_ := by
  unfold assembleSquare
  rw [if_pos hk]

lemma assembleSquare_mat (s : Interp) (hk : 0 < s.eq_const_c_) (i j : ℕ) :
    (assembleSquare s).mat i j =
      if i < s.nx ∧ j < s.nx then AtA s i j
      else if i < s.nx then Centry s (j - s.nx) i
      else if j < s.nx then Centry s (i - s.nx) j
      else 0 := by
  unfold assembleSquare
  rw [if_pos hk]

lemma assembleSquare_rhs (s : Interp) (hk : 0 < s.eq_const_c_) (i : ℕ) :
    (assembleSquare s).rhs i =
      if i < s.nx then AtB s i else dEntry s (i - s.nx) := by
  unfold assembleSquare
  rw [if_pos hk]

lemma tripletsFrom_row_bounds (l : List (List PFloat × List PFloat)) (c0 : ℕ) :
    ∀ t ∈ tripletsFrom c0 l, c0 ≤ t.2.1 ∧ t.2.1 < c0 + l.length := by
  induction l generalizing c0 with
  | nil => intro t ht; simp [tripletsFrom] at ht
  | cons p rest ih =>
    intro t ht
    rw [tripletsFrom] at ht
    rcases List.mem_append.mp ht with hm | hm
    · rcases List.mem_map.mp hm with ⟨e, _, rfl⟩
      refine ⟨le_refl c0, ?_⟩
      show c0 < c0 + (rest.length + 1)
      omega
    · have hb := ih (c0 + 1) t hm
      constructor
      · omega
      · show t.2.1 < c0 + (rest.length + 1)
        omega

lemma findProp_cons_self (n : String) (v : List PFloat)
    (rest : List (String × List PFloat)) :
    findProp ((n, v) :: rest) n = some v := by
  unfold findProp
  rw [if_pos rfl]

lemma cs8_cg_zero : bkOne.cg (solveSys cs8 "cg" kwDefault)
    = List.replicate cs8.nx 0 := by
  show oneSolve (solveSys cs8 "cg" kwDefault) = [0]
  unfold oneSolve
  have hrhs : (solveSys cs8 "cg" kwDefault).rhs 0 = 0 := by
    show (assembleSquare cs8).rhs 0 = 0
    have h1 : (assembleSquare cs8).rhs 0 = AtB cs8 0 := by
      unfold assembleSquare
      rw [if_neg (by decide)]
    rw [h1]
    unfold AtB
    show Finset.sum (Finset.range 0) (fun r => Aent cs8 r 0 * Bent cs8 r) = 0
    rw [Finset.range_zero, Finset.sum_empty]
  rw [hrhs]
  norm_num

/-- Claim C1: `build_matrix(square=True)` on a state with `k > 0` accumulated
equality constraints returns a square system of shape
`(nx + k, nx + k)`; without damping its leading `nx × nx` block is exactly
`AᵀA`, bordered by the equality block `C` and its transpose with a zero
lower-right block, and its right-hand side is `AᵀB` stacked over the equality
targets `d`. -/
theorem build_matrix_square_block_structure (s : Interp) (hk : 0 < s.eq_const_c_) :
    (build_matrix s true false).1.nrows = s.nx + s.eq_const_c_ ∧
    (build_matrix s true false).1.ncols = s.nx + s.eq_const_c_ ∧
    (build_matrix s true false).1.rhsLen = s.nx + s.eq_const_c_ ∧
    (∀ i j, i < s.nx → j < s.nx →
      (build_matrix s true false).1.mat i j = AtA s i j) ∧
    (∀ i r, i < s.nx → r < s.eq_const_c_ →
      (build_matrix s true false).1.mat i (s.nx + r) = Centry s r i) ∧
    (∀ r j, r < s.eq_const_c_ → j < s.nx →
      (build_matrix s true false).1.mat (s.nx + r) j = Centry s r j) ∧
    (∀ r t, r < s.eq_const_c_ → t < s.eq_const_c_ →
      (build_matrix s true false).1.mat (s.nx + r) (s.nx + t) = 0) ∧
    (∀ i, i < s.nx → (build_matrix s true false).1.rhs i = AtB s i) ∧
    (∀ r, r < s.eq_const_c_ →
      (build_matrix s true false).1.rhs (s.nx + r) = dEntry s r) := by
  have hbm : (build_matrix s true false).1 = assembleSquare s := rfl
  simp only [hbm]
  refine ⟨assembleSquare_nrows s hk, assembleSquare_ncols s hk,
    assembleSquare_rhsLen s hk, ?_, ?_, ?_, ?_, ?_, ?_⟩
  · intro i j hi hj
    rw [assembleSquare_mat s hk, if_pos ⟨hi, hj⟩]
  · intro i r hi hr
    rw [assembleSquare_mat s hk, if_neg (by omega), if_pos hi,
      Nat.add_sub_cancel_left]
  · intro r j hr hj
    rw [assembleSquare_mat s hk, if_neg (by omega), if_neg (by omega),
      if_pos hj, Nat.add_sub_cancel_left]
  · intro r t hr ht
    rw [assembleSquare_mat s hk, if_neg (by omega), if_neg (by omega),
      if_neg (by omega)]
  · intro i hi
    rw [assembleSquare_rhs s hk, if_pos hi]
  · intro r hr
    rw [assembleSquare_rhs s hk, if_neg (by omega), Nat.add_sub_cancel_left]

/-- Witness for C1 at the concrete state `cs1` (nx = 2, one soft row, one
equality constraint). -/
theorem build_matrix_square_block_structure_witness :
    0 < cs1.eq_const_c_ ∧
    ((build_matrix cs1 true false).1.nrows = cs1.nx + cs1.eq_const_c_ ∧
    (build_matrix cs1 true false).1.ncols = cs1.nx + cs1.eq_const_c_ ∧
    (build_matrix cs1 true false).1.rhsLen = cs1.nx + cs1.eq_const_c_ ∧
    (∀ i j, i < cs1.nx → j < cs1.nx →
      (build_matrix cs1 true false).1.mat i j = AtA cs1 i j) ∧
    (∀ i r, i < cs1.nx → r < cs1.eq_const_c_ →
      (build_matrix cs1 true false).1.mat i (cs1.nx + r) = Centry cs1 r i) ∧
    (∀ r j, r < cs1.eq_const_c_ → j < cs1.nx →
      (build_matrix cs1 true false).1.mat (cs1.nx + r) j = Centry cs1 r j) ∧
    (∀ r t, r < cs1.eq_const_c_ → t < cs1.eq_const_c_ →
      (build_matrix cs1 true false).1.mat (cs1.nx + r) (cs1.nx + t) = 0) ∧
    (∀ i, i < cs1.nx → (build_matrix cs1 true false).1.rhs i = AtB cs1 i) ∧
    (∀ r, r < cs1.eq_const_c_ →
      (build_matrix cs1 true false).1.rhs (cs1.nx + r) = dEntry cs1 r)) :=
  ⟨by decide, build_matrix_square_block_structure cs1 (by decide)⟩

/-- Claim C2: a batch containing a NaN anywhere in the coefficients, the
column indices or the right-hand side is rejected whole: the call returns
(it is a total function here), logs the warning, and leaves the triplet
stores, the RHS list, the row counter and the equality stores untouched. -/
theorem add_constraints_nan_whole_batch_rejected (s : Interp)
    (Ain : List (List PFloat)) (Bin : List PFloat) (idc : List (List PFloat))
    (h : hasNaNMat idc = true ∨ hasNaNMat Ain = true ∨ hasNaNRow Bin = true) :
    (add_constraints_to_least_squares s Ain Bin idc).A = s.A ∧
    (add_constraints_to_least_squares s Ain Bin idc).row = s.row ∧
    (add_constraints_to_least_squares s Ain Bin idc).col = s.col ∧
    (add_constraints_to_least_squares s Ain Bin idc).B = s.B ∧
    (add_constraints_to_least_squares s Ain Bin idc).c_ = s.c_ ∧
    (add_constraints_to_least_squares s Ain Bin idc).eq_const_C = s.eq_const_C ∧
    (add_constraints_to_least_squares s Ain Bin idc).eq_const_c_ = s.eq_const_c_ ∧
    (add_constraints_to_least_squares s Ain Bin idc).log
      = s.log ++ ["Constraints contain nan not adding constraints"] := by
  have hcond : (hasNaNMat idc || hasNaNMat Ain || hasNaNRow Bin) = true := by
    rcases h with h | h | h <;> simp [h]
  unfold add_constraints_to_least_squares
  rw [hcond]
  simp

/-- Witness for C2: a NaN in the column-index array of a batch pushed onto
the concrete state `cs2`. -/
theorem add_constraints_nan_whole_batch_rejected_witness :
    (hasNaNMat [[PFloat.nan]] = true ∨ hasNaNMat [[PFloat.val 1]] = true ∨
      hasNaNRow [PFloat.val 4] = true) ∧
    ((add_constraints_to_least_squares cs2 [[PFloat.val 1]] [PFloat.val 4]
        [[PFloat.nan]]).A = cs2.A ∧
    (add_constraints_to_least_squares cs2 [[PFloat.val 1]] [PFloat.val 4]
        [[PFloat.nan]]).row = cs2.row ∧
    (add_constraints_to_least_squares cs2 [[PFloat.val 1]] [PFloat.val 4]
        [[PFloat.nan]]).col = cs2.col ∧
    (add_constraints_to_least_squares cs2 [[PFloat.val 1]] [PFloat.val 4]
        [[PFloat.nan]]).B = cs2.B ∧
    (add_constraints_to_least_squares cs2 [[PFloat.val 1]] [PFloat.val 4]
        [[PFloat.nan]]).c_ = cs2.c_ ∧
    (add_constraints_to_least_squares cs2 [[PFloat.val 1]] [PFloat.val 4]
        [[PFloat.nan]]).eq_const_C = cs2.eq_const_C ∧
    (add_constraints_to_least_squares cs2 [[PFloat.val 1]] [PFloat.val 4]
        [[PFloat.nan]]).eq_const_c_ = cs2.eq_const_c_ ∧
    (add_constraints_to_least_squares cs2 [[PFloat.val 1]] [PFloat.val 4]
        [[PFloat.nan]]).log
      = cs2.log ++ ["Constraints contain nan not adding constraints"]) :=
  ⟨Or.inl (by decide),
    add_constraints_nan_whole_batch_rejected cs2 [[PFloat.val 1]] [PFloat.val 4]
      [[PFloat.nan]] (Or.inl (by decide))⟩

/-- Claim C5: `build_matrix(square=False)` returns exactly the rectangular
system: shape `(c_, nx)`, matrix entries from the soft-constraint triplets,
dense RHS of the accumulated `B` values; the equality stores have no effect
on the result, which is accompanied by a log message, not an error. -/
theorem build_matrix_rectangular_ignores_equality (s : Interp) (damp : Bool) :
    (build_matrix s false damp).1.nrows = s.c_ ∧
    (build_matrix s false damp).1.ncols = s.nx ∧
    (∀ i j, (build_matrix s false damp).1.mat i j = cooEntry s.A s.row s.col i j) ∧
    (∀ i, (build_matrix s false damp).1.rhs i = qAt s.B i) ∧
    (build_matrix s false damp).1.rhsLen = s.B.length ∧
    (∀ eqC : List ℚ, ∀ eqRow : List ℕ, ∀ eqCol eqD : List ℚ, ∀ k : ℕ,
      build_matrix
        { s with
          eq_const_C := eqC
          eq_const_row := eqRow
          eq_const_col := eqCol
          eq_const_d := eqD
          eq_const_c_ := k } false damp
        = build_matrix s false damp) ∧
    "Using rectangular matrix, equality constraints are not used"
      ∈ (build_matrix s false damp).2 := by
  refine ⟨rfl, rfl, fun i j => rfl, fun i => rfl, rfl,
    fun eqC eqRow eqCol eqD k => rfl, ?_⟩
  simp [build_matrix]

/-- Claim C10: `update()` on an interpolator whose stored solver is `None`
does nothing — no assembly, no solve — and returns `False`, leaving the whole
state (stores, counters, published properties) unchanged. -/
theorem update_without_solver_returns_false (setup : Interp → Interp)
    (bk : Backends) (s : Interp) (h : s.solver = none) :
    update setup bk s = Except.ok (some false, s) := by
  unfold update
  rw [h]

/-- Witness for C10 at the concrete fresh state `cs10`. -/
theorem update_without_solver_returns_false_witness :
    cs10.solver = none ∧
      update (fun t => t) bkOne cs10 = Except.ok (some false, cs10) :=
  ⟨rfl, update_without_solver_returns_false (fun t => t) bkOne cs10 rfl⟩

/-- Claim C3: on a rectangular-shape interpolator, a NaN-free batch is
flattened with contiguous row indices continuing from the running counter;
entries with an exactly-zero coefficient are absent from the value/row/column
stores while the full flattened RHS (including rows whose coefficients were
stripped) is appended to `B`, and the counter advances by the number of rows. -/
theorem add_constraints_zero_coefficients_stripped (s : Interp)
    (Ain : List (List PFloat)) (Bin : List PFloat) (idc : List (List PFloat))
    (hshape : s.shape = "rectangular")
    (h1 : hasNaNMat idc = false) (h2 : hasNaNMat Ain = false)
    (h3 : hasNaNRow Bin = false)
    (hli : idc.length = Ain.length)
    (hrows : ∀ p ∈ Ain.zip idc, p.1.length = p.2.length)
    (hB : Bin.length = Ain.length) :
    (add_constraints_to_least_squares s Ain Bin idc).A
        = s.A ++ (keptTriplets Ain idc s.c_).map (fun t => PFloat.toQ t.1) ∧
    (add_constraints_to_least_squares s Ain Bin idc).row
        = s.row ++ (keptTriplets Ain idc s.c_).map (fun t => t.2.1) ∧
    (add_constraints_to_least_squares s Ain Bin idc).col
        = s.col ++ (keptTriplets Ain idc s.c_).map (fun t => PFloat.toQ t.2.2) ∧
    (add_constraints_to_least_squares s Ain Bin idc).B
        = s.B ++ Bin.map PFloat.toQ ∧
    (add_constraints_to_least_squares s Ain Bin idc).c_ = s.c_ + Ain.length ∧
    (∀ t ∈ keptTriplets Ain idc s.c_,
      PFloat.isZero t.1 = false ∧ s.c_ ≤ t.2.1 ∧ t.2.1 < s.c_ + Ain.length) ∧
    (∀ t, t ∈ tripletsFrom s.c_ (Ain.zip idc) → PFloat.isZero t.1 = true →
      ¬ t ∈ keptTriplets Ain idc s.c_) := by
  have hcond : (hasNaNMat idc || hasNaNMat Ain || hasNaNRow Bin) = false := by
    simp [h1, h2, h3]
  unfold add_constraints_to_least_squares
  rw [hcond, hshape]
  simp only [Bool.false_eq_true, if_false, if_pos rfl]
  refine ⟨rfl, rfl, rfl, rfl, rfl, ?_, ?_⟩
  · intro t ht
    have hf := List.mem_filter.mp ht
    refine ⟨of_decide_eq_true hf.2, ?_⟩
    have hb := tripletsFrom_row_bounds (Ain.zip idc) s.c_ t hf.1
    have hlz : (Ain.zip idc).length ≤ Ain.length := by
      rw [List.length_zip]
      omega
    constructor
    · exact hb.1
    · omega
  · intro t _ hz hmem
    have hf := List.mem_filter.mp hmem
    have := of_decide_eq_true hf.2
    rw [hz] at this
    exact Bool.noConfusion this

/-- Witness for C3: a 2-row batch on `cs3` with one zero coefficient per row. -/
theorem add_constraints_zero_coefficients_stripped_witness :
    cs3.shape = "rectangular" ∧
    ((add_constraints_to_least_squares cs3
        [[PFloat.val 2, PFloat.val 0], [PFloat.val 0, PFloat.val 3]]
        [PFloat.val 4, PFloat.val 5]
        [[PFloat.val 0, PFloat.val 1], [PFloat.val 0, PFloat.val 1]]).A
        = cs3.A ++ (keptTriplets
            [[PFloat.val 2, PFloat.val 0], [PFloat.val 0, PFloat.val 3]]
            [[PFloat.val 0, PFloat.val 1], [PFloat.val 0, PFloat.val 1]]
            cs3.c_).map (fun t => PFloat.toQ t.1) ∧
    (add_constraints_to_least_squares cs3
        [[PFloat.val 2, PFloat.val 0], [PFloat.val 0, PFloat.val 3]]
        [PFloat.val 4, PFloat.val 5]
        [[PFloat.val 0, PFloat.val 1], [PFloat.val 0, PFloat.val 1]]).row
        = cs3.row ++ (keptTriplets
            [[PFloat.val 2, PFloat.val 0], [PFloat.val 0, PFloat.val 3]]
            [[PFloat.val 0, PFloat.val 1], [PFloat.val 0, PFloat.val 1]]
            cs3.c_).map (fun t => t.2.1) ∧
    (add_constraints_to_least_squares cs3
        [[PFloat.val 2, PFloat.val 0], [PFloat.val 0, PFloat.val 3]]
        [PFloat.val 4, PFloat.val 5]
        [[PFloat.val 0, PFloat.val 1], [PFloat.val 0, PFloat.val 1]]).col
        = cs3.col ++ (keptTriplets
            [[PFloat.val 2, PFloat.val 0], [PFloat.val 0, PFloat.val 3]]
            [[PFloat.val 0, PFloat.val 1], [PFloat.val 0, PFloat.val 1]]
            cs3.c_).map (fun t => PFloat.toQ t.2.2) ∧
    (add_constraints_to_least_squares cs3
        [[PFloat.val 2, PFloat.val 0], [PFloat.val 0, PFloat.val 3]]
        [PFloat.val 4, PFloat.val 5]
        [[PFloat.val 0, PFloat.val 1], [PFloat.val 0, PFloat.val 1]]).B
        = cs3.B ++ [PFloat.val 4, PFloat.val 5].map PFloat.toQ ∧
    (add_constraints_to_least_squares cs3
        [[PFloat.val 2, PFloat.val 0], [PFloat.val 0, PFloat.val 3]]
        [PFloat.val 4, PFloat.val 5]
        [[PFloat.val 0, PFloat.val 1], [PFloat.val 0, PFloat.val 1]]).c_
        = cs3.c_ + [[PFloat.val 2, PFloat.val 0], [PFloat.val 0, PFloat.val 3]].length ∧
    (∀ t ∈ keptTriplets
        [[PFloat.val 2, PFloat.val 0], [PFloat.val 0, PFloat.val 3]]
        [[PFloat.val 0, PFloat.val 1], [PFloat.val 0, PFloat.val 1]] cs3.c_,
      PFloat.isZero t.1 = false ∧ cs3.c_ ≤ t.2.1 ∧
        t.2.1 < cs3.c_ + [[PFloat.val 2, PFloat.val 0], [PFloat.val 0, PFloat.val 3]].length) ∧
    (∀ t, t ∈ tripletsFrom cs3.c_
        ([[PFloat.val 2, PFloat.val 0], [PFloat.val 0, PFloat.val 3]].zip
          [[PFloat.val 0, PFloat.val 1], [PFloat.val 0, PFloat.val 1]]) →
      PFloat.isZero t.1 = true →
      ¬ t ∈ keptTriplets
        [[PFloat.val 2, PFloat.val 0], [PFloat.val 0, PFloat.val 3]]
        [[PFloat.val 0, PFloat.val 1], [PFloat.val 0, PFloat.val 1]] cs3.c_)) :=
  ⟨rfl, add_constraints_zero_coefficients_stripped cs3
    [[PFloat.val 2, PFloat.val 0], [PFloat.val 0, PFloat.val 3]]
    [PFloat.val 4, PFloat.val 5]
    [[PFloat.val 0, PFloat.val 1], [PFloat.val 0, PFloat.val 1]]
    rfl (by decide) (by decide) (by decide) (by decide) (by decide) (by decide)⟩

/-- Claim C4: `add_equality_constraints` drops every supplied global node
index outside the active region; each retained index appends exactly one
triplet with coefficient 1, column equal to its region-local index and target
equal to its supplied value; the batch row indices restart at 0 and run
contiguously over the retained entries, and `eq_const_c_` advances by the
number of retained entries. -/
theorem add_equality_constraints_region_filtered (s : Interp)
    (node_idx : List ℕ) (values : List ℚ)
    (hlen : node_idx.length = values.length) :
    (add_equality_constraints s node_idx values).eq_const_C
        = s.eq_const_C ++ List.replicate (keptEq s node_idx values).length 1 ∧
    (add_equality_constraints s node_idx values).eq_const_col
        = s.eq_const_col ++ (keptEq s node_idx values).map (fun p => (p.1 : ℚ)) ∧
    (add_equality_constraints s node_idx values).eq_const_row
        = s.eq_const_row ++ List.range (keptEq s node_idx values).length ∧
    (add_equality_constraints s node_idx values).eq_const_d
        = s.eq_const_d ++ (keptEq s node_idx values).map (fun p => p.2) ∧
    (add_equality_constraints s node_idx values).eq_const_c_
        = s.eq_const_c_ + (keptEq s node_idx values).length ∧
    (∀ p ∈ keptEq s node_idx values, p.1 ≠ -1) ∧
    (∀ g, ¬ g ∈ s.region → giFun s g = -1) ∧
    (s.region.Nodup → s.region.length = s.nx → ∀ i, ∀ hi : i < s.region.length,
      giFun s (s.region.get ⟨i, hi⟩) = (i : ℤ)) := by
  refine ⟨rfl, rfl, rfl, rfl, rfl, ?_, ?_, ?_⟩
  · intro p hp
    have hf := (List.mem_filter.mp hp).2
    exact bne_iff_ne.mp hf
  · intro g hg
    unfold giFun
    apply gi_fold_not_mem
    intro p hp hpg
    obtain ⟨a, b⟩ := p
    exact hg (hpg ▸ (List.of_mem_zip hp).1)
  · exact fun hnd hnx i hi => giFun_local_index s hnd hnx i hi

/-- Witness for C4 on `cs4` (region nodes 0 and 2): node 1 is out of region
and contributes nothing; node 2 is retained with local index 1. -/
theorem add_equality_constraints_region_filtered_witness :
    [2, 1].length = [(7 : ℚ), 8].length ∧
    ((add_equality_constraints cs4 [2, 1] [7, 8]).eq_const_C
        = cs4.eq_const_C ++ List.replicate (keptEq cs4 [2, 1] [7, 8]).length 1 ∧
    (add_equality_constraints cs4 [2, 1] [7, 8]).eq_const_col
        = cs4.eq_const_col ++ (keptEq cs4 [2, 1] [7, 8]).map (fun p => (p.1 : ℚ)) ∧
    (add_equality_constraints cs4 [2, 1] [7, 8]).eq_const_row
        = cs4.eq_const_row ++ List.range (keptEq cs4 [2, 1] [7, 8]).length ∧
    (add_equality_constraints cs4 [2, 1] [7, 8]).eq_const_d
        = cs4.eq_const_d ++ (keptEq cs4 [2, 1] [7, 8]).map (fun p => p.2) ∧
    (add_equality_constraints cs4 [2, 1] [7, 8]).eq_const_c_
        = cs4.eq_const_c_ + (keptEq cs4 [2, 1] [7, 8]).length ∧
    (∀ p ∈ keptEq cs4 [2, 1] [7, 8], p.1 ≠ -1) ∧
    (∀ g, ¬ g ∈ cs4.region → giFun cs4 g = -1) ∧
    (cs4.region.Nodup → cs4.region.length = cs4.nx →
      ∀ i, ∀ hi : i < cs4.region.length,
      giFun cs4 (cs4.region.get ⟨i, hi⟩) = (i : ℤ))) :=
  ⟨rfl, add_equality_constraints_region_filtered cs4 [2, 1] [7, 8] rfl⟩

/-- Claim C7: `_solve` creates a full-length result array of NaNs, overwrites
only the region's entries with the dispatched backend output restricted to
the first `nx` components, and publishes the array onto the support under the
configured property name; entries outside the region stay NaN.  Hypotheses:
a recognized solver name, a well-formed region, an available backend (cholmod
present when `chol` is requested, an `external` kwarg when `external` is
requested), and a backend output covering the region, as numpy's scatter
assignment requires. -/
theorem solve_scatters_restricted_solution_and_publishes
    (bk : Backends) (s : Interp) (kw : Kwargs) (solver : String)
    (hsup : solver ∈ supportedSolvers)
    (hnodup : s.region.Nodup)
    (hreg : ∀ g ∈ s.region, g < s.n_nodes)
    (hnx : s.region.length = s.nx)
    (hchol : solver = "chol" → bk.cholAvailable = true)
    (hext : solver = "external" → kw.extSolver.isNone = false)
    (hout : (solveVec bk kw s (solveSys s solver kw) solver).length
        = s.region.length) :
    ∃ t, solveStep bk s solver kw = Except.ok t ∧
      t.c.length = s.n_nodes ∧
      (∀ g, ¬ g ∈ s.region → atD t.c g = PFloat.nan) ∧
      solveVec bk kw s (solveSys s solver kw) solver
          = (rawOutput bk kw (solveSys s solver kw) solver).take s.nx ∧
      (∀ p ∈ s.region.zip (solveVec bk kw s (solveSys s solver kw) solver),
          atD t.c p.1 = PFloat.val p.2) ∧
      getProp t s.propertyname = some t.c := by
  have hc1 : ¬ (solver = "external" ∧ kw.extSolver.isNone = true) := by
    rintro ⟨he, hn⟩
    rw [hext he] at hn
    exact Bool.noConfusion hn
  have hc2 : ¬ (solver = "chol" ∧ bk.cholAvailable = false) := by
    rintro ⟨he, hn⟩
    rw [hchol he] at hn
    exact Bool.noConfusion hn
  have hstep : solveStep bk s solver kw
      = Except.ok (publish s
          (scatter (List.replicate s.n_nodes PFloat.nan) s.region
            (solveVec bk kw s (solveSys s solver kw) solver))
          (buildLog s solver kw ++ dispatchLog bk solver)) := by
    unfold solveStep
    rw [if_neg hc1, if_neg hc2, if_pos hsup]
  refine ⟨_, hstep, ?_, ?_, ?_, ?_, ?_⟩
  · show (scatter (List.replicate s.n_nodes PFloat.nan) s.region
      (solveVec bk kw s (solveSys s solver kw) solver)).length = s.n_nodes
    rw [scatter_length, List.length_replicate]
  · intro g hg
    show atD (scatter (List.replicate s.n_nodes PFloat.nan) s.region
      (solveVec bk kw s (solveSys s solver kw) solver)) g = PFloat.nan
    unfold scatter
    rw [scatter_core_atD_not_mem]
    · exact atD_replicate _ _
    · intro p hp hpg
      obtain ⟨a, b⟩ := p
      exact hg (hpg ▸ (List.of_mem_zip hp).1)
  · by_cases hl : solver = "lsqr"
    · subst hl
      have hlen : (rawOutput bk kw (solveSys s "lsqr" kw) "lsqr").length = s.nx := by
        have h0 := hout
        unfold solveVec at h0
        rw [if_pos rfl] at h0
        rw [h0, hnx]
      unfold solveVec
      rw [if_pos rfl]
      exact (List.take_of_length_le (le_of_eq hlen)).symm
    · unfold solveVec
      rw [if_neg hl]
  · intro p hp
    obtain ⟨a, b⟩ := p
    show atD (scatter (List.replicate s.n_nodes PFloat.nan) s.region
      (solveVec bk kw s (solveSys s solver kw) solver)) a = PFloat.val b
    unfold scatter
    apply scatter_core_atD_mem
    · exact hp
    · rw [List.map_fst_zip _ _ (le_of_eq hout.symm)]
      exact hnodup
    · rw [List.length_replicate]
      exact hreg a (List.of_mem_zip hp).1
  · show findProp ((s.propertyname, _) :: s.props) s.propertyname = some _
    unfold findProp
    rw [if_pos rfl]
    rfl

/-- Witness for C7: solver `lu` on the concrete one-node system `cs6`. -/
theorem solve_scatters_restricted_solution_and_publishes_witness :
    ("lu" ∈ supportedSolvers ∧ cs6.region.Nodup ∧
      (∀ g ∈ cs6.region, g < cs6.n_nodes) ∧
      cs6.region.length = cs6.nx ∧
      ("lu" = "chol" → bkOne.cholAvailable = true) ∧
      ("lu" = "external" → kwDefault.extSolver.isNone = false) ∧
      (solveVec bkOne kwDefault cs6 (solveSys cs6 "lu" kwDefault) "lu").length
        = cs6.region.length) ∧
    (∃ t, solveStep bkOne cs6 "lu" kwDefault = Except.ok t ∧
      t.c.length = cs6.n_nodes ∧
      (∀ g, ¬ g ∈ cs6.region → atD t.c g = PFloat.nan) ∧
      solveVec bkOne kwDefault cs6 (solveSys cs6 "lu" kwDefault) "lu"
          = (rawOutput bkOne kwDefault (solveSys cs6 "lu" kwDefault) "lu").take cs6.nx ∧
      (∀ p ∈ cs6.region.zip
          (solveVec bkOne kwDefault cs6 (solveSys cs6 "lu" kwDefault) "lu"),
          atD t.c p.1 = PFloat.val p.2) ∧
      getProp t cs6.propertyname = some t.c) :=
  ⟨⟨by decide, by decide, by decide, by decide, by decide, by decide, by decide⟩,
    solve_scatters_restricted_solution_and_publishes bkOne cs6 kwDefault "lu"
      (by decide) (by decide) (by decide) (by decide) (by decide) (by decide)
      (by decide)⟩

/-- Amended C6: when the sparse-Cholesky backing library is not installed,
`_solve` with solver `chol` does *not* fall back to conjugate gradient:
`_solve_chol` logs the warning and returns `False`, which numpy broadcasts as
0.0 over the region slice, so every region node of the published field is 0. -/
theorem solve_chol_unavailable_broadcasts_zero (bk : Backends) (s : Interp)
    (kw : Kwargs) (h : bk.cholAvailable = false)
    (hreg : ∀ g ∈ s.region, g < s.n_nodes) :
    ∃ t, solveStep bk s "chol" kw = Except.ok t ∧
      (∀ g ∈ s.region, atD t.c g = PFloat.val 0) ∧
      "Scikit Sparse not installed try using cg instead" ∈ t.log ∧
      getProp t s.propertyname = some t.c := by
  have hc1 : ¬ ("chol" = "external" ∧ kw.extSolver.isNone = true) := by
    rintro ⟨he, _⟩
    exact absurd he (by decide)
  have hstep : solveStep bk s "chol" kw
      = Except.ok (publish s
          (scatterFalse (List.replicate s.n_nodes PFloat.nan) s.region)
          (buildLog s "chol" kw
            ++ ["Scikit Sparse not installed try using cg instead"])) := by
    unfold solveStep
    rw [if_neg hc1, if_pos ⟨rfl, h⟩]
  refine ⟨_, hstep, ?_, ?_, ?_⟩
  · intro g hg
    show atD (scatterFalse (List.replicate s.n_nodes PFloat.nan) s.region) g
      = PFloat.val 0
    apply scatterFalse_atD
    · rw [List.length_replicate]
      exact hreg g hg
    · left
      exact hg
  · show _ ∈ s.log ++ (buildLog s "chol" kw
      ++ ["Scikit Sparse not installed try using cg instead"]) ++ _ ++ _
    simp
  · show findProp ((s.propertyname, _) :: s.props) s.propertyname = some _
    unfold findProp
    rw [if_pos rfl]
    rfl

/-- Witness for the amended C6 on the concrete state `cs6` with the
cholmod library unavailable. -/
theorem solve_chol_unavailable_broadcasts_zero_witness :
    (bkOne.cholAvailable = false ∧ (∀ g ∈ cs6.region, g < cs6.n_nodes)) ∧
    (∃ t, solveStep bkOne cs6 "chol" kwDefault = Except.ok t ∧
      (∀ g ∈ cs6.region, atD t.c g = PFloat.val 0) ∧
      "Scikit Sparse not installed try using cg instead" ∈ t.log ∧
      getProp t cs6.propertyname = some t.c) :=
  ⟨⟨rfl, by decide⟩,
    solve_chol_unavailable_broadcasts_zero bkOne cs6 kwDefault rfl (by decide)⟩

/-- Counterexample to C6 as stated: on the one-node system `2·x = 3` (damped
normal equations `(4+ε)·x = 6`), solver `chol` with the backing library absent
publishes 0 at the region node, while explicitly selecting `cg` publishes
`6/(4+ε)`; the two differ by far more than any solver tolerance (1e-6 here),
so no fallback to conjugate gradient happens. -/
theorem chol_unavailable_not_cg_counterexample :
    okProp (solveStep bkOne cs6 "chol" kwDefault) "phi" = some [PFloat.val 0] ∧
    okProp (solveStep bkOne cs6 "cg" kwDefault) "phi"
        = some [PFloat.val (6 / (4 + eps))] ∧
    ¬ (6 / (4 + eps) - 0 ≤ (1 : ℚ) / 1000000) := by
  have hAent : Aent cs6 0 0 = 2 := by
    show cooFold [(0, ((0 : ℚ), (2 : ℚ)))] 0 0 = 2
    norm_num [cooFold]
  have hAtA : AtA cs6 0 0 = 4 := by
    unfold AtA
    show Finset.sum (Finset.range 1) (fun r => Aent cs6 r 0 * Aent cs6 r 0) = 4
    rw [Finset.sum_range_one, hAent]
    norm_num
  have hAtB : AtB cs6 0 = 6 := by
    unfold AtB
    show Finset.sum (Finset.range 1) (fun r => Aent cs6 r 0 * Bent cs6 r) = 6
    rw [Finset.sum_range_one, hAent]
    have hB : Bent cs6 0 = 3 := rfl
    rw [hB]
    norm_num
  have hsqmat : (assembleSquare cs6).mat 0 0 = AtA cs6 0 0 := by
    unfold assembleSquare
    rw [if_neg (by decide)]
  have hsqn : (assembleSquare cs6).nrows = 1 := by
    unfold assembleSquare
    rw [if_neg (by decide)]
    rfl
  have hmat : (solveSys cs6 "cg" kwDefault).mat 0 0 = 4 + eps := by
    show (dampSystem (assembleSquare cs6)).mat 0 0 = 4 + eps
    unfold dampSystem
    show (assembleSquare cs6).mat 0 0
        + (if 0 = 0 ∧ 0 < (assembleSquare cs6).nrows then eps else 0) = 4 + eps
    rw [hsqmat, hAtA, hsqn, if_pos (by norm_num)]
  have hrhs : (solveSys cs6 "cg" kwDefault).rhs 0 = 6 := by
    show (assembleSquare cs6).rhs 0 = 6
    have hsq : (assembleSquare cs6).rhs 0 = AtB cs6 0 := by
      unfold assembleSquare
      rw [if_neg (by decide)]
    rw [hsq, hAtB]
  have hcgout : bkOne.cg (solveSys cs6 "cg" kwDefault) = [6 / (4 + eps)] := by
    show oneSolve (solveSys cs6 "cg" kwDefault) = [6 / (4 + eps)]
    unfold oneSolve
    rw [hrhs, hmat]
  have hvec : solveVec bkOne kwDefault cs6 (solveSys cs6 "cg" kwDefault) "cg"
      = [6 / (4 + eps)] := by
    unfold solveVec
    rw [if_neg (by decide)]
    unfold rawOutput
    rw [if_pos rfl, hcgout]
    rfl
  have hstep : solveStep bkOne cs6 "cg" kwDefault
      = Except.ok (publish cs6
          (scatter (List.replicate cs6.n_nodes PFloat.nan) cs6.region
            (solveVec bkOne kwDefault cs6 (solveSys cs6 "cg" kwDefault) "cg"))
          (buildLog cs6 "cg" kwDefault ++ dispatchLog bkOne "cg")) := by
    unfold solveStep
    rw [if_neg (by decide), if_neg (by decide), if_pos (by decide)]
  refine ⟨rfl, ?_, by norm_num [eps]⟩
  unfold okProp
  rw [hstep]
  show findProp (("phi",
      scatter (List.replicate cs6.n_nodes PFloat.nan) cs6.region
        (solveVec bkOne kwDefault cs6 (solveSys cs6 "cg" kwDefault) "cg"))
      :: cs6.props) "phi" = some [PFloat.val (6 / (4 + eps))]
  rw [findProp_cons_self, hvec]
  rfl

/-- Amended C8: a solve on an empty constraint set (0 soft rows, 0 equality
rows) does not raise; the assembled square system has an all-zero right-hand
side, and the conjugate-gradient result — the zero vector on a zero RHS — is
scattered into the region, so region nodes are published as 0.0, not NaN, and
the warning about an all-zero field is logged. -/
theorem solve_empty_constraints_scatters_solver_zeros (bk : Backends)
    (s : Interp) (kw : Kwargs) (hc : s.c_ = 0) (heq : s.eq_const_c_ = 0)
    (hnodup : s.region.Nodup) (hreg : ∀ g ∈ s.region, g < s.n_nodes)
    (hnx : s.region.length = s.nx)
    (hcg : bk.cg (solveSys s "cg" kw) = List.replicate s.nx 0) :
    ∃ t, solveStep bk s "cg" kw = Except.ok t ∧
      (∀ i, (solveSys s "cg" kw).rhs i = 0) ∧
      (∀ g ∈ s.region, atD t.c g = PFloat.val 0) ∧
      "No solution, scalar field 0. Add more data." ∈ t.log := by
  have hrhs0 : ∀ i, (solveSys s "cg" kw).rhs i = 0 := by
    intro i
    have h1 : (solveSys s "cg" kw).rhs = (assembleSquare s).rhs := by
      unfold solveSys
      rw [if_neg (by decide)]
      cases hb : kw.damp.getD true
      · rfl
      · rfl
    rw [h1]
    have h2 : (assembleSquare s).rhs = AtB s := by
      unfold assembleSquare
      rw [if_neg (by omega)]
    rw [h2]
    unfold AtB
    rw [hc, Finset.range_zero, Finset.sum_empty]
  have hvec : solveVec bk kw s (solveSys s "cg" kw) "cg"
      = List.replicate s.nx 0 := by
    unfold solveVec
    rw [if_neg (by decide)]
    unfold rawOutput
    rw [if_pos rfl, hcg, List.take_replicate, Nat.min_self]
  have hstep : solveStep bk s "cg" kw
      = Except.ok (publish s
          (scatter (List.replicate s.n_nodes PFloat.nan) s.region
            (solveVec bk kw s (solveSys s "cg" kw) "cg"))
          (buildLog s "cg" kw ++ dispatchLog bk "cg")) := by
    unfold solveStep
    rw [if_neg (fun hp => absurd hp.1 (by decide)),
      if_neg (fun hp => absurd hp.1 (by decide)), if_pos (by decide)]
  have hzero : ∀ g ∈ s.region,
      atD (scatter (List.replicate s.n_nodes PFloat.nan) s.region
        (solveVec bk kw s (solveSys s "cg" kw) "cg")) g = PFloat.val 0 := by
    intro g hg
    rw [hvec]
    unfold scatter
    apply scatter_core_atD_mem
    · have hm := mem_zip_replicate hg (0 : ℚ)
      rw [hnx] at hm
      exact hm
    · rw [List.map_fst_zip]
      · exact hnodup
      · rw [List.length_replicate]
        exact le_of_eq hnx
    · rw [List.length_replicate]
      exact hreg g hg
  refine ⟨_, hstep, hrhs0, hzero, ?_⟩
  have hall : (s.region.map (fun g =>
      atD (scatter (List.replicate s.n_nodes PFloat.nan) s.region
        (solveVec bk kw s (solveSys s "cg" kw) "cg")) g)).all
      (fun x => pfeq x (PFloat.val 0)) = true := by
    rw [List.all_eq_true]
    intro x hx
    rcases List.mem_map.mp hx with ⟨g, hg, rfl⟩
    rw [hzero g hg]
    rfl
  simp [publish, hall]

/-- Witness for the amended C8 on the concrete empty-constraint state `cs8`. -/
theorem solve_empty_constraints_scatters_solver_zeros_witness :
    (cs8.c_ = 0 ∧ cs8.eq_const_c_ = 0 ∧ cs8.region.Nodup ∧
      (∀ g ∈ cs8.region, g < cs8.n_nodes) ∧ cs8.region.length = cs8.nx ∧
      bkOne.cg (solveSys cs8 "cg" kwDefault) = List.replicate cs8.nx 0) ∧
    (∃ t, solveStep bkOne cs8 "cg" kwDefault = Except.ok t ∧
      (∀ i, (solveSys cs8 "cg" kwDefault).rhs i = 0) ∧
      (∀ g ∈ cs8.region, atD t.c g = PFloat.val 0) ∧
      "No solution, scalar field 0. Add more data." ∈ t.log) :=
  ⟨⟨rfl, rfl, by decide, by decide, rfl, cs8_cg_zero⟩,
    solve_empty_constraints_scatters_solver_zeros bkOne cs8 kwDefault rfl rfl
      (by decide) (by decide) rfl cs8_cg_zero⟩

/-- Counterexample to C8 as stated: on the empty one-node system the solve
completes and publishes 0.0 — not NaN — at the region node (the zero cg
solution is scattered). -/
theorem empty_solve_region_zero_counterexample :
    exceptOk (solveStep bkOne cs8 "cg" kwDefault) = true ∧
    okProp (solveStep bkOne cs8 "cg" kwDefault) "phi" = some [PFloat.val 0] ∧
    ¬ PFloat.val (0 : ℚ) = PFloat.nan := by
  have hvec : solveVec bkOne kwDefault cs8 (solveSys cs8 "cg" kwDefault) "cg"
      = [0] := by
    unfold solveVec
    rw [if_neg (by decide)]
    unfold rawOutput
    rw [if_pos rfl, cs8_cg_zero]
    rfl
  have hstep : solveStep bkOne cs8 "cg" kwDefault
      = Except.ok (publish cs8
          (scatter (List.replicate cs8.n_nodes PFloat.nan) cs8.region
            (solveVec bkOne kwDefault cs8 (solveSys cs8 "cg" kwDefault) "cg"))
          (buildLog cs8 "cg" kwDefault ++ dispatchLog bkOne "cg")) := by
    unfold solveStep
    rw [if_neg (by decide), if_neg (by decide), if_pos (by decide)]
  refine ⟨?_, ?_, by decide⟩
  · rw [hstep]
    rfl
  · unfold okProp
    rw [hstep]
    show findProp (("phi",
        scatter (List.replicate cs8.n_nodes PFloat.nan) cs8.region
          (solveVec bkOne kwDefault cs8 (solveSys cs8 "cg" kwDefault) "cg"))
        :: cs8.props) "phi" = some [PFloat.val 0]
    rw [findProp_cons_self, hvec]
    rfl

/-- Amended C9: `_solve` with a solver name outside the supported set does not
surface any error: no branch runs, the call completes normally and publishes
the still-all-NaN full-length array under the configured property name. -/
theorem solve_unknown_solver_returns_normally (bk : Backends) (s : Interp)
    (kw : Kwargs) (solver : String) (h : ¬ solver ∈ supportedSolvers) :
    ∃ t, solveStep bk s solver kw = Except.ok t ∧
      t.c = List.replicate s.n_nodes PFloat.nan ∧
      getProp t s.propertyname = some t.c := by
  have hs1 : solver ≠ "external" := by
    intro he
    apply h
    rw [he]
    decide
  have hs2 : solver ≠ "chol" := by
    intro he
    apply h
    rw [he]
    decide
  have hstep : solveStep bk s solver kw
      = Except.ok (publish s (List.replicate s.n_nodes PFloat.nan)
          (buildLog s solver kw)) := by
    unfold solveStep
    rw [if_neg (fun hp => hs1 hp.1), if_neg (fun hp => hs2 hp.1), if_neg h]
  refine ⟨_, hstep, rfl, ?_⟩
  show findProp ((s.propertyname, _) :: s.props) s.propertyname = some _
  unfold findProp
  rw [if_pos rfl]
  rfl

/-- Witness for the amended C9: the unrecognized solver name `gauss`. -/
theorem solve_unknown_solver_returns_normally_witness :
    ¬ "gauss" ∈ supportedSolvers ∧
    (∃ t, solveStep bkOne cs8 "gauss" kwDefault = Except.ok t ∧
      t.c = List.replicate cs8.n_nodes PFloat.nan ∧
      getProp t cs8.propertyname = some t.c) :=
  ⟨by decide, solve_unknown_solver_returns_normally bkOne cs8 kwDefault "gauss"
    (by decide)⟩

/-- Counterexample to C9 as stated: `_solve` with the unknown solver name
`gauss` returns normally (no caller-visible error) and silently publishes the
all-NaN array. -/
theorem unknown_solver_no_error_counterexample :
    exceptOk (solveStep bkOne cs8 "gauss" kwDefault) = true ∧
    okC (solveStep bkOne cs8 "gauss" kwDefault) = some [PFloat.nan] :=
  ⟨rfl, rfl⟩
